import Mathlib

/-!
Shallow embedding of `bamboo/ml/ModelingData.py` (class `ModelingData` and the
static `get_threshold_summary`), together with proofs settling the frozen
claims about its specification.

Modelling conventions:
* A pandas cell is a `Cell` (the examples need integers and strings only).
* A pandas `Series` value is a `Val`; besides scalars it can hold a whole
  feature row (`Val.row`), because line 97 of the source stores a frame
  where a target series is expected, and Python is dynamically typed.
* Row index labels are natural numbers; the data model (spec section 3) fixes
  them to be unique identifiers shared between `features` and `targets`.
* `from __future__ import division` (source line 1) is in force: `/` on the
  counts below is exact division on `ℚ`, and a division whose denominator is
  zero raises `ZeroDivisionError`, modelled by returning `Option.none` from
  `get_threshold_summary` at the first zero denominator in source order.
* Randomness (`numpy.random.choice`, `ShuffleSplit`) comes from external
  collaborators (spec section 6); it is abstracted by explicit parameters: a
  draw oracle `pick` for `choice`, and the drawn positional `train`/`test`
  lists for `ShuffleSplit`.
-/

/-- A scalar cell of a feature table. -/
inductive Cell where
  | int : ℤ → Cell
  | str : String → Cell
deriving DecidableEq, Repr

/-- A dynamically-typed value held by a series: Python `None`, a scalar, or a
whole feature row (what line 97 of the source stores into a targets slot). -/
inductive Val where
  | none : Val
  | int : ℤ → Val
  | str : String → Val
  | row : List Cell → Val
deriving DecidableEq, Repr

def Cell.toVal : Cell → Val
  | .int n => .int n
  | .str s => .str s

/-- A pandas Series: row label paired with value, in row order. -/
abbrev Series := List (ℕ × Val)

/-- Label-based lookup in a series (`targets[idx]`, `targets.ix[label]` for a
single label): the first entry carrying the label. -/
def seriesLookup (s : Series) (l : ℕ) : Option Val :=
  (s.find? (fun p => p.1 == l)).map Prod.snd

/-- Selection `targets.ix[labels]`: label-based selection of a list of labels (with
repetition allowed, as produced by sampling with replacement). -/
def seriesIxLabel (s : Series) (ls : List ℕ) : Series :=
  ls.filterMap (fun l => (seriesLookup s l).map (fun v => (l, v)))

/-- Positional (0-based) selection from a series; spec section 4.3 fixes the
`.ix[...]` calls on `ShuffleSplit` output to positional selection. -/
def seriesIxPos (s : Series) (ps : List ℕ) : Series :=
  ps.filterMap (fun i => s[i]?)

/-- A pandas DataFrame: named columns and labelled rows of cells. -/
structure DataFrame where
  columns : List String
  rows : List (ℕ × List Cell)
deriving DecidableEq, Repr

/-- Position of a column name in a column list (first occurrence). -/
def colIdx : List String → String → Option ℕ
  | [], _ => Option.none
  | c :: cs, n => if c = n then some 0 else (colIdx cs n).map (· + 1)

/-- The row of a frame carrying a given label (first occurrence). -/
def DataFrame.rowAt (df : DataFrame) (l : ℕ) : Option (List Cell) :=
  (df.rows.find? (fun p => p.1 == l)).map Prod.snd

/-- Selection `df.ix[labels]`: label-based row selection, repetition allowed. -/
def DataFrame.ixLabel (df : DataFrame) (ls : List ℕ) : DataFrame :=
  ⟨df.columns, ls.filterMap (fun l => (df.rowAt l).map (fun r => (l, r)))⟩

/-- Selection `df.ix[positions]`: positional row selection (see `seriesIxPos`). -/
def DataFrame.ixPos (df : DataFrame) (ps : List ℕ) : DataFrame :=
  ⟨df.columns, ps.filterMap (fun i => df.rows[i]?)⟩

/-- Lookup `df[name]`: extract one column as a series (`KeyError` = `Option.none`). -/
def DataFrame.col? (df : DataFrame) (name : String) : Option Series :=
  (colIdx df.columns name).map
    (fun i => df.rows.map (fun p => (p.1, ((p.2[i]?).map Cell.toVal).getD Val.none)))

/-- Selection `df[names]`: select a sub-frame of the named columns
(`KeyError` = `Option.none` when a name is absent). -/
def DataFrame.select (df : DataFrame) (names : List String) : Option DataFrame :=
  if names.all (fun n => (colIdx df.columns n).isSome) then
    some ⟨names, df.rows.map
      (fun p => (p.1, names.filterMap (fun n => (colIdx df.columns n).bind (fun i => p.2[i]?))))⟩
  else Option.none

/-- Python exceptions raised by the embedded code. -/
inductive PyError where
  | assertionError : PyError
  | attributeError : String → PyError
  | zeroDivisionError : PyError
deriving DecidableEq, Repr

/-- The `indices` accumulator of the balancing loops: `indices.extend(...)`
applied across the groups, i.e. concatenation of the per-group lists. -/
def concatLists {α : Type} : List (List α) → List α
  | [] => []
  | x :: xs => x ++ concatLists xs

/-- Distinct target values. `num_classes` is `len(value_counts())`, the number
of distinct values; pandas enumerates groups in sorted key order, while this
embedding enumerates them by `dedup` — every property proved below is
insensitive to the enumeration order of the classes. -/
def classesOf (s : Series) : List Val := (s.map Prod.snd).dedup

/-- The row labels of one target class, in existing row order
(`group.index` for the group of class `c`). -/
def classLabels (s : Series) (c : Val) : List ℕ :=
  (s.filter (fun p => p.2 == c)).map Prod.fst

/-- The size of one class (one entry of `value_counts()`). -/
def classCount (s : Series) (c : Val) : ℕ :=
  (s.filter (fun p => p.2 == c)).length

/-- Method `num_classes()`: the length of `self.targets.value_counts()`. -/
def numClasses (s : Series) : ℕ := (classesOf s).length

/-- Value `self.targets.value_counts().min()`: the minimum class count
(source line 109); the value for an empty series is never consulted, since the
balancing loop then has no groups. -/
def minClassCount (s : Series) : ℕ :=
  match (classesOf s).map (classCount s) with
  | [] => 0
  | x :: xs => xs.foldl min x

/-- The `ModelingData` container (source lines 13-25): features table, target
column and optional weights (`weights=None` in `__init__`; every derived
operation constructs `ModelingData(features, targets)` without weights). -/
structure ModelingData where
  features : DataFrame
  targets : Series
  weights : Option Series
deriving DecidableEq, Repr

/-- Method `__len__` (source lines 42-44): asserts the two lengths agree
(`AssertionError` otherwise) and returns the target length. -/
def ModelingData.len? (md : ModelingData) : Except PyError ℕ :=
  if md.features.rows.length = md.targets.length then Except.ok md.targets.length
  else Except.error PyError.assertionError

/-- Static method `from_dataframe` (source lines 28-39). When `features` is omitted, the
fallback list comprehension is `[feature for feature in df.columns if
features != target]`: the condition compares the *argument* `features`
(which is `None` in this branch) with `target`, not the loop variable, and
`None != <string>` is always true in Python — so no column is excluded. -/
def ModelingData.from_dataframe (df : DataFrame) (target : String)
    (features : Option (List String)) : Option ModelingData :=
  match df.col? target with
  | Option.none => Option.none
  | some target_data =>
    let features_list := match features with
      | some fs => fs
      | Option.none => df.columns.filter (fun _feature => Val.none != Val.str target)
    match df.select features_list with
    | Option.none => Option.none
    | some feature_data => some ⟨feature_data, target_data, Option.none⟩

/-- Method `train_test_split` (source lines 72-99). `test_size`, `train_size` and
`random_state` only parameterize the external `ShuffleSplit` collaborator,
whose single drawn partition is passed here as the positional lists `train`
and `test`. Line 97 of the source sets `y_test = self.features.ix[test]`
(a frame of feature rows, not the targets); each such row is stored in the
targets slot as `Val.row`. -/
def ModelingData.train_test_split (md : ModelingData) (train test : List ℕ) :
    ModelingData × ModelingData :=
  let X_train := md.features.ixPos train
  let y_train := seriesIxPos md.targets train
  let X_test := md.features.ixPos test
  let y_test := (md.features.ixPos test).rows.map (fun p => (p.1, Val.row p.2))
  (⟨X_train, y_train, Option.none⟩, ⟨X_test, y_test, Option.none⟩)

/-- Method `_balance_by_truncation` (source lines 102-116): `group_size` is the
minimum class count; for each group of `features.groupby(self.targets)` the
first `group_size` row labels are kept, the kept labels are concatenated
across groups, and both members are re-selected by label. -/
def ModelingData.balanceByTruncation (md : ModelingData) : ModelingData :=
  let group_size := minClassCount md.targets
  let indices := concatLists
    ((classesOf md.targets).map (fun c => (classLabels md.targets c).take group_size))
  ⟨md.features.ixLabel indices, seriesIxLabel md.targets indices, Option.none⟩

/-- Call `numpy.random.choice(values, n, replace=True)`: `n` independent draws from
`values`, the draw positions supplied by the oracle `pick` (randomness is
abstracted; that the library draws uniformly is a distributional property
outside this embedding). -/
def npChoice (values : List ℕ) (n : ℕ) (pick : ℕ → ℕ) : List ℕ :=
  (List.range n).map (fun i => (values[pick i % values.length]?).getD 0)

/-- Quotient `size / self.num_classes()` (source line 123): *true* division on account
of `from __future__ import division` (source line 1), hence a rational. In
Python the division raises `ZeroDivisionError` when `num_classes()` is zero;
`balanceBySample` guards its only use accordingly, so the total-division value
at a zero denominator is never consulted. -/
def approxNumPerClass (md : ModelingData) (size : ℕ) : ℚ :=
  (size : ℚ) / (numClasses md.targets : ℚ)

/-- Method `_balance_by_sample_with_replace` (source lines 119-130): `size` defaults
to `len(self)` (which runs the `__len__` assertion); the division
`size / self.num_classes()` at line 123 raises `ZeroDivisionError` when the
instance has no classes; otherwise the rational per-class count is handed to
`numpy.random.choice`, whose size coercion truncates an integral float
(modelled by `Rat.floor`; for a non-integral count the handling in the
library is version-dependent, see the claim record); per class, that many
labels are drawn with replacement from the labels of that class. -/
def ModelingData.balanceBySample (md : ModelingData) (size? : Option ℕ)
    (pick : ℕ → ℕ) : Except PyError ModelingData :=
  match (match size? with | some n => Except.ok n | Option.none => md.len?) with
  | Except.error e => Except.error e
  | Except.ok size =>
    if numClasses md.targets = 0 then Except.error PyError.zeroDivisionError
    else
      let k := (Rat.floor (approxNumPerClass md size)).toNat
      let indices := concatLists
        ((classesOf md.targets).map (fun c => npChoice (classLabels md.targets c) k pick))
      Except.ok ⟨md.features.ixLabel indices, seriesIxLabel md.targets indices, Option.none⟩

/-- Method `get_balanced` (source lines 137-149): dispatch on `how`; any other value
raises a bare `AttributeError()` — constructed with *no* arguments, so its
message is empty. -/
def ModelingData.get_balanced (md : ModelingData) (how : String) (pick : ℕ → ℕ) :
    Except PyError ModelingData :=
  if how = "truncate" then Except.ok md.balanceByTruncation
  else if how = "sample" then md.balanceBySample Option.none pick
  else Except.error (PyError.attributeError "")

/-- A per-row probability record as produced by `predict_proba`
(source lines 179-200): probability fields keyed `proba_<label>` plus the
actual target label. All records produced by `predict_proba` carry the same
probability keys, so the keys are modelled as a total function. -/
structure ProbaRecord where
  proba : String → ℚ
  target : String

/-- The summary record returned by `get_threshold_summary`
(source lines 266-279); the field `sensiticity` keeps the spelling used in
the source. -/
structure ThresholdSummary where
  threshold : ℚ
  target : String
  true_positives : ℕ
  false_positives : ℕ
  true_negatives : ℕ
  false_negatives : ℕ
  precision : ℚ
  «recall» : ℚ
  sensiticity : ℚ
  specificity : ℚ
  accuracy : ℚ
  f1 : ℚ
  false_positive_rate : ℚ
  true_positive_rate : ℚ
deriving DecidableEq, Repr

/-- The probability column label: the string `proba_` followed by the target
(source line 232). -/
def probaLabel (target : String) : String := "proba_" ++ target

/-- The predicted-positive records: `proba_<target> >= threshold`
(source line 236). -/
def positivesOf (ps : List ProbaRecord) (target : String) (threshold : ℚ) :
    List ProbaRecord :=
  ps.filter (fun r => decide (threshold ≤ r.proba (probaLabel target)))

/-- The predicted-negative records: `proba_<target> < threshold`
(source line 240; computed but consulted only for its length, which the
returned record does not carry). -/
def negativesOf (ps : List ProbaRecord) (target : String) (threshold : ℚ) :
    List ProbaRecord :=
  ps.filter (fun r => decide (r.proba (probaLabel target) < threshold))

/-- Predicted-positive records whose actual target equals the target
(`true_positives`, source line 237). -/
def truePositivesOf (ps : List ProbaRecord) (target : String) (threshold : ℚ) :
    List ProbaRecord :=
  (positivesOf ps target threshold).filter (fun r => r.target == target)

/-- Predicted-positive records whose actual target differs from the target
(`false_positives`, source line 238). -/
def falsePositivesOf (ps : List ProbaRecord) (target : String) (threshold : ℚ) :
    List ProbaRecord :=
  (positivesOf ps target threshold).filter (fun r => r.target != target)

/-- The records the source counts as `true_negatives` (line 241): it filters
the predicted-*positive* subset here, not `negatives`. -/
def trueNegativesOf (ps : List ProbaRecord) (target : String) (threshold : ℚ) :
    List ProbaRecord :=
  (positivesOf ps target threshold).filter (fun r => r.target != target)

/-- The records the source counts as `false_negatives` (line 242): likewise
filtered from the predicted-positive subset. -/
def falseNegativesOf (ps : List ProbaRecord) (target : String) (threshold : ℚ) :
    List ProbaRecord :=
  (positivesOf ps target threshold).filter (fun r => r.target == target)

/-- Static method `get_threshold_summary` (source lines 221-279). Every division is true
division; an unguarded division with zero denominator raises
`ZeroDivisionError`, modelled as `Option.none` at the first zero denominator
in source evaluation order: the rate fields divide by `num` (lines 254-255),
`precision` by `num_positives` (line 257), `recall` by
`num_true_positives + num_false_negatives` (line 258), and `f1` by
`2*num_true_positives + num_false_positives + num_false_negatives` (line 264);
only `specificity` (line 261) guards its denominator, yielding `1.0`. -/
def get_threshold_summary (ps : List ProbaRecord) (target : String)
    (threshold : ℚ) : Option ThresholdSummary :=
  let num := ps.length
  let num_positives := (positivesOf ps target threshold).length
  let num_true_positives := (truePositivesOf ps target threshold).length
  let num_false_positives := (falsePositivesOf ps target threshold).length
  let num_true_negatives := (trueNegativesOf ps target threshold).length
  let num_false_negatives := (falseNegativesOf ps target threshold).length
  if num = 0 then Option.none
  else if num_positives = 0 then Option.none
  else if num_true_positives + num_false_negatives = 0 then Option.none
  else if 2 * num_true_positives + num_false_positives + num_false_negatives = 0 then Option.none
  else some
    ⟨threshold, target,
     num_true_positives, num_false_positives, num_true_negatives, num_false_negatives,
     (num_true_positives : ℚ) / (num_positives : ℚ),
     (num_true_positives : ℚ) / ((num_true_positives : ℚ) + (num_false_negatives : ℚ)),
     (num_true_positives : ℚ) / ((num_true_positives : ℚ) + (num_false_negatives : ℚ)),
     (if 0 < num_false_positives + num_true_negatives then
        (num_true_negatives : ℚ) / ((num_false_positives : ℚ) + (num_true_negatives : ℚ))
      else 1),
     ((num_true_positives : ℚ) + (num_true_negatives : ℚ)) / (num : ℚ),
     (2 * num_true_positives : ℚ) /
       ((2 * num_true_positives : ℚ) + (num_false_positives : ℚ) + (num_false_negatives : ℚ)),
     (num_true_positives : ℚ) / (num : ℚ),
     (num_false_positives : ℚ) / (num : ℚ)⟩

/-! Concrete data used to evaluate the code at specific inputs. -/

/-- A draw oracle that always picks position 0. -/
def pickZero : ℕ → ℕ := fun _ => 0

/-- A probability assignment giving `proba_A` the value `q`. -/
def probaA (q : ℚ) : String → ℚ := fun s => if s = "proba_A" then q else 0

/-- Two rows: features x = 1, 2; targets 10, 20. -/
def mdC1 : ModelingData :=
  ⟨⟨["x"], [(0, [Cell.int 1]), (1, [Cell.int 2])]⟩,
   [(0, Val.int 10), (1, Val.int 20)], Option.none⟩

/-- Three rows: features x = 1, 2, 3; targets 10, 20, 30. -/
def mdC2 : ModelingData :=
  ⟨⟨["x"], [(0, [Cell.int 1]), (1, [Cell.int 2]), (2, [Cell.int 3])]⟩,
   [(0, Val.int 10), (1, Val.int 20), (2, Val.int 30)], Option.none⟩

/-- Probability records (proba_A, target): (0.9, A), (0.8, B), (0.7, B), (0.1, B). -/
def exC3 : List ProbaRecord :=
  [⟨probaA (mkRat 9 10), "A"⟩, ⟨probaA (mkRat 8 10), "B"⟩,
   ⟨probaA (mkRat 7 10), "B"⟩, ⟨probaA (mkRat 1 10), "B"⟩]

/-- Probability records (proba_A, target): (0.9, A), (0.8, A), (0.7, B), (0.1, B). -/
def exC4 : List ProbaRecord :=
  [⟨probaA (mkRat 9 10), "A"⟩, ⟨probaA (mkRat 8 10), "A"⟩,
   ⟨probaA (mkRat 7 10), "B"⟩, ⟨probaA (mkRat 1 10), "B"⟩]

/-- Ten rows in three classes of sizes 4, 3, 3. -/
def mdC5x : ModelingData :=
  ⟨⟨["x"], [(0, [Cell.int 0]), (1, [Cell.int 1]), (2, [Cell.int 2]), (3, [Cell.int 3]),
            (4, [Cell.int 4]), (5, [Cell.int 5]), (6, [Cell.int 6]), (7, [Cell.int 7]),
            (8, [Cell.int 8]), (9, [Cell.int 9])]⟩,
   [(0, Val.str "a"), (1, Val.str "a"), (2, Val.str "a"), (3, Val.str "a"),
    (4, Val.str "b"), (5, Val.str "b"), (6, Val.str "b"),
    (7, Val.str "c"), (8, Val.str "c"), (9, Val.str "c")], Option.none⟩

/-- Four rows in two classes: targets a, b, a, b. -/
def mdC5w : ModelingData :=
  ⟨⟨["x"], [(0, [Cell.int 1]), (1, [Cell.int 2]), (2, [Cell.int 3]), (3, [Cell.int 4])]⟩,
   [(0, Val.str "a"), (1, Val.str "b"), (2, Val.str "a"), (3, Val.str "b")], Option.none⟩

/-- The balanced sample drawn from `mdC5w` by `pickZero`. -/
def rC5w : ModelingData :=
  ⟨⟨["x"], [(0, [Cell.int 1]), (0, [Cell.int 1]), (1, [Cell.int 2]), (1, [Cell.int 2])]⟩,
   [(0, Val.str "a"), (0, Val.str "a"), (1, Val.str "b"), (1, Val.str "b")], Option.none⟩

/-- Three rows, classes a (rows 0 and 2) and b (row 1). -/
def mdC6w : ModelingData :=
  ⟨⟨["x"], [(0, [Cell.int 1]), (1, [Cell.int 2]), (2, [Cell.int 3])]⟩,
   [(0, Val.str "a"), (1, Val.str "b"), (2, Val.str "a")], Option.none⟩

/-- A combined table with a target column `t` and one other column `x`. -/
def dfC7 : DataFrame :=
  ⟨["t", "x"], [(0, [Cell.int 1, Cell.int 2]), (1, [Cell.int 3, Cell.int 4])]⟩

/-- The `ModelingData` that `from_dataframe` builds from `dfC7` with target
`t` and `features` omitted. -/
def mdC7w : ModelingData :=
  ⟨⟨["t", "x"], [(0, [Cell.int 1, Cell.int 2]), (1, [Cell.int 3, Cell.int 4])]⟩,
   [(0, Val.int 1), (1, Val.int 3)], Option.none⟩

/-- Two rows in two classes, used for the `get_balanced` dispatch claims. -/
def mdC8w : ModelingData :=
  ⟨⟨["x"], [(0, [Cell.int 1]), (1, [Cell.int 2])]⟩,
   [(0, Val.str "a"), (1, Val.str "b")], Option.none⟩

/-- An empty instance: features and targets of equal length zero, hence zero
classes — the `len(self)` assertion holds but line 123 divides by
`num_classes() = 0`. -/
def mdC8e : ModelingData := ⟨⟨["x"], []⟩, [], Option.none⟩

/-- Probability records (proba_A, target): (0.9, A), (0.2, B). -/
def exC9 : List ProbaRecord := [⟨probaA (mkRat 9 10), "A"⟩, ⟨probaA (mkRat 2 10), "B"⟩]

/-- A single record with proba_A below every positive threshold. -/
def exC9neg : List ProbaRecord := [⟨probaA (mkRat 1 10), "A"⟩]

/-- An all-zero summary record, used only as a `getD` default. -/
def junkTS : ThresholdSummary := ⟨0, "", 0, 0, 0, 0, 0, 0, 0, 0, 0, 0, 0, 0⟩

/-- The summary the code returns on `exC9` at threshold 1/2. -/
def recC9 : ThresholdSummary := (get_threshold_summary exC9 "A" (mkRat 1 2)).getD junkTS

/-- Probability records (proba_A, target): (0.9, A), (0.1, B). -/
def exC10 : List ProbaRecord := [⟨probaA (mkRat 9 10), "A"⟩, ⟨probaA (mkRat 1 10), "B"⟩]

/-- The summary the code returns on `exC10` at threshold 1/2. -/
def recC10 : ThresholdSummary := (get_threshold_summary exC10 "A" (mkRat 1 2)).getD junkTS

/-! Helper instances and lemmas shared by the claim proofs. -/

instance {α β : Type} [DecidableEq α] [DecidableEq β] : DecidableEq (Except α β) :=
  fun a b =>
    match a, b with
    | .ok x, .ok y => if h : x = y then isTrue (by rw [h]) else isFalse (by simp [h])
    | .error x, .error y => if h : x = y then isTrue (by rw [h]) else isFalse (by simp [h])
    | .ok _, .error _ => isFalse (by simp)
    | .error _, .ok _ => isFalse (by simp)

theorem ratFloor_natCast_div (a b : ℕ) :
    (Rat.floor ((a : ℚ) / (b : ℚ))).toNat = a / b := by
  have h1 : Rat.floor ((a : ℚ) / (b : ℚ)) = ⌊((a : ℚ) / (b : ℚ))⌋ := by
    rw [Rat.floor_def', Rat.floor_def]
  rw [h1, Rat.floor_natCast_div_natCast, ← Int.natCast_div]
  exact Int.toNat_natCast _

theorem concatLists_filter {α : Type} (p : α → Bool) (L : List (List α)) :
    (concatLists L).filter p = concatLists (L.map (fun l => l.filter p)) := by
  induction L with
  | nil => rfl
  | cons x xs ih => simp [concatLists, List.filter_append, ih]

theorem concatLists_filterMap {α β : Type} (f : α → Option β) (L : List (List α)) :
    (concatLists L).filterMap f = concatLists (L.map (fun l => l.filterMap f)) := by
  induction L with
  | nil => rfl
  | cons x xs ih => simp [concatLists, List.filterMap_append, ih]

theorem concatLists_length_const {α β : Type} (xs : List α) (f : α → List β) (m : ℕ)
    (h : ∀ x ∈ xs, (f x).length = m) :
    (concatLists (xs.map f)).length = xs.length * m := by
  induction xs with
  | nil => simp [concatLists]
  | cons x xs ih =>
    simp only [List.map_cons, concatLists, List.length_append, List.length_cons]
    rw [h x (by simp), ih (fun y hy => h y (by simp [hy]))]
    ring

theorem concatLists_eq_of_single {α β : Type} [DecidableEq α] (cls : List α) (c₀ : α)
    (g : α → List β) (hn : cls.Nodup) (hc : c₀ ∈ cls) :
    concatLists (cls.map (fun c => if c = c₀ then g c else [])) = g c₀ := by
  induction cls with
  | nil => cases hc
  | cons x xs ih =>
    by_cases hx : x = c₀
    · subst hx
      have hnot : ∀ c ∈ xs, ¬(c = x) := by
        intro c hcx heq; exact (List.nodup_cons.mp hn).1 (heq ▸ hcx)
      have hz : concatLists (xs.map (fun c => if c = x then g c else [])) = [] := by
        clear ih hc hn
        induction xs with
        | nil => rfl
        | cons y ys ihy =>
          simp only [List.map_cons, concatLists]
          rw [if_neg (hnot y (by simp)), List.nil_append]
          exact ihy (fun c hcx => hnot c (by simp [hcx]))
      simp [concatLists, hz]
    · have hc' : c₀ ∈ xs := by
        rcases List.mem_cons.mp hc with h | h
        · exact absurd h.symm hx
        · exact h
      simp only [List.map_cons, concatLists, if_neg hx, List.nil_append]
      exact ih (List.nodup_cons.mp hn).2 hc'

theorem seriesLookup_eq_of_mem {t : Series} (hn : (t.map Prod.fst).Nodup)
    {l : ℕ} {v : Val} (hm : (l, v) ∈ t) : seriesLookup t l = some v := by
  induction t with
  | nil => cases hm
  | cons p ts ih =>
    rw [List.map_cons, List.nodup_cons] at hn
    rcases List.mem_cons.mp hm with h | h
    · subst h
      simp [seriesLookup, List.find?_cons]
    · have hne : ¬(p.1 == l) = true := by
        intro hb
        have hl : l ∈ ts.map Prod.fst := List.mem_map.mpr ⟨(l, v), h, rfl⟩
        exact hn.1 ((eq_of_beq hb) ▸ hl)
      have ihr := ih hn.2 h
      simpa [seriesLookup, List.find?_cons, hne] using ihr

theorem mem_seriesIxLabel {t : Series} {ls : List ℕ} {p : ℕ × Val}
    (h : p ∈ seriesIxLabel t ls) : seriesLookup t p.1 = some p.2 := by
  rcases List.mem_filterMap.mp h with ⟨l, _, hl⟩
  rcases Option.map_eq_some'.mp hl with ⟨v, hv, hpv⟩
  cases hpv
  exact hv

theorem seriesIxLabel_map_const {t : Series} {c : Val} :
    ∀ {ls : List ℕ}, (∀ l ∈ ls, seriesLookup t l = some c) →
      seriesIxLabel t ls = ls.map (fun l => (l, c))
  | [], _ => rfl
  | l :: ls, h => by
    have hl := h l (by simp)
    have ihr := @seriesIxLabel_map_const t c ls
      (fun x hx => h x (by simp [hx]))
    simp [seriesIxLabel, List.filterMap_cons, hl] at ihr ⊢
    exact ihr

theorem mem_ixLabel_rows {df : DataFrame} {ls : List ℕ} {p : ℕ × List Cell}
    (h : p ∈ (df.ixLabel ls).rows) : df.rowAt p.1 = some p.2 := by
  rcases List.mem_filterMap.mp h with ⟨l, _, hl⟩
  rcases Option.map_eq_some'.mp hl with ⟨r, hr, hpr⟩
  cases hpr
  exact hr

theorem mem_of_mem_classLabels {t : Series} {c : Val} {l : ℕ}
    (h : l ∈ classLabels t c) : (l, c) ∈ t := by
  rcases List.mem_map.mp h with ⟨p, hp, hpl⟩
  rcases List.mem_filter.mp hp with ⟨hpt, hpc⟩
  have : p.2 = c := eq_of_beq hpc
  cases hpl
  have : p = (p.1, c) := by rw [← this]
  exact this ▸ hpt

theorem seriesLookup_of_mem_classLabels {t : Series} {c : Val} {l : ℕ}
    (hn : (t.map Prod.fst).Nodup) (h : l ∈ classLabels t c) :
    seriesLookup t l = some c :=
  seriesLookup_eq_of_mem hn (mem_of_mem_classLabels h)

theorem classLabels_ne_nil {t : Series} {c : Val} (hc : c ∈ classesOf t) :
    classLabels t c ≠ [] := by
  have hc' : c ∈ t.map Prod.snd := (List.mem_dedup).mp hc
  rcases List.mem_map.mp hc' with ⟨p, hp, hpc⟩
  intro hnil
  have : p ∈ t.filter (fun q => q.2 == c) :=
    List.mem_filter.mpr ⟨hp, by simp [hpc]⟩
  have : p.1 ∈ classLabels t c := List.mem_map.mpr ⟨p, this, rfl⟩
  simp [hnil] at this

theorem length_classLabels (t : Series) (c : Val) :
    (classLabels t c).length = classCount t c := by
  simp [classLabels, classCount]

theorem foldl_min_le : ∀ (xs : List ℕ) (x : ℕ), ∀ a ∈ x :: xs, xs.foldl min x ≤ a := by
  intro xs
  induction xs with
  | nil =>
    intro x a ha
    rcases List.mem_cons.mp ha with h | h
    · simp [h]
    · cases h
  | cons y ys ih =>
    intro x a ha
    have hfold : (y :: ys).foldl min x = ys.foldl min (min x y) := rfl
    rcases List.mem_cons.mp ha with h | h
    · rw [hfold, h]
      calc ys.foldl min (min x y) ≤ min x y := ih (min x y) (min x y) (by simp)
        _ ≤ x := Nat.min_le_left _ _
    · rcases List.mem_cons.mp h with h' | h'
      · rw [hfold, h']
        calc ys.foldl min (min x y) ≤ min x y := ih (min x y) (min x y) (by simp)
          _ ≤ y := Nat.min_le_right _ _
      · exact hfold ▸ ih (min x y) a (by simp [h'])

theorem minClassCount_le {t : Series} {c : Val} (hc : c ∈ classesOf t) :
    minClassCount t ≤ classCount t c := by
  have hmem : classCount t c ∈ (classesOf t).map (classCount t) :=
    List.mem_map.mpr ⟨c, hc, rfl⟩
  unfold minClassCount
  rcases hcs : (classesOf t).map (classCount t) with _ | ⟨x, xs⟩
  · rw [hcs] at hmem; cases hmem
  · rw [hcs] at hmem
    exact foldl_min_le xs x _ hmem

theorem npChoice_length (values : List ℕ) (n : ℕ) (pick : ℕ → ℕ) :
    (npChoice values n pick).length = n := by
  simp [npChoice]

theorem mem_npChoice {values : List ℕ} {n : ℕ} {pick : ℕ → ℕ} {x : ℕ}
    (hv : values ≠ []) (hx : x ∈ npChoice values n pick) : x ∈ values := by
  rcases List.mem_map.mp hx with ⟨i, _, hi⟩
  have hlen : 0 < values.length := List.length_pos.mpr hv
  have hidx : pick i % values.length < values.length := Nat.mod_lt _ hlen
  rw [List.getElem?_eq_getElem hidx] at hi
  simp only [Option.getD_some] at hi
  exact hi ▸ List.getElem_mem _

theorem filter_pairs_const (xs : List ℕ) (c c₀ : Val) :
    ((xs.map (fun l => (l, c))).filter (fun p => p.2 == c₀))
      = if c = c₀ then xs.map (fun l => (l, c)) else [] := by
  induction xs with
  | nil => simp
  | cons x xs ih =>
    by_cases h : c = c₀
    · simp only [List.map_cons, List.filter_cons, if_pos h]
      simp [h, ih, if_pos h]
    · simp only [List.map_cons, List.filter_cons]
      have : ¬((x, c).2 == c₀) = true := by simpa using h
      simp [this, ih, if_neg h]

theorem seriesIxLabel_concat (t : Series) (L : List (List ℕ)) :
    seriesIxLabel t (concatLists L) = concatLists (L.map (seriesIxLabel t)) :=
  concatLists_filterMap _ L

/-- Structure of a per-class label selection: selecting the concatenation of
per-class label segments from an aligned series yields the concatenation of
the per-class `(label, class)` segments, and filtering the result by one class
returns exactly the segment of that class. -/
theorem balancedSelection (t : Series) (hn : (t.map Prod.fst).Nodup)
    (seg : Val → List ℕ)
    (hseg : ∀ c ∈ classesOf t, ∀ l ∈ seg c, l ∈ classLabels t c) :
    (seriesIxLabel t (concatLists ((classesOf t).map seg))
        = concatLists ((classesOf t).map (fun c => (seg c).map (fun l => (l, c)))))
    ∧ (∀ c ∈ classesOf t,
        (seriesIxLabel t (concatLists ((classesOf t).map seg))).filter
            (fun p => p.2 == c) = (seg c).map (fun l => (l, c))) := by
  have h1 : ∀ c ∈ classesOf t, seriesIxLabel t (seg c) = (seg c).map (fun l => (l, c)) :=
    fun c hc => seriesIxLabel_map_const
      (fun l hl => seriesLookup_of_mem_classLabels hn (hseg c hc l hl))
  have hpart1 : seriesIxLabel t (concatLists ((classesOf t).map seg))
      = concatLists ((classesOf t).map (fun c => (seg c).map (fun l => (l, c)))) := by
    rw [seriesIxLabel_concat, List.map_map]
    exact congrArg concatLists (List.map_congr_left h1)
  refine ⟨hpart1, fun c hc => ?_⟩
  rw [hpart1, concatLists_filter, List.map_map]
  have h2 : ((classesOf t).map
      (fun c' => ((seg c').map (fun l => (l, c'))).filter (fun p => p.2 == c)))
      = (classesOf t).map (fun c' => if c' = c then (seg c').map (fun l => (l, c')) else []) :=
    List.map_congr_left (fun c' _ => filter_pairs_const (seg c') c' c)
  have h3 : (List.map (fun c' => ((seg c').map (fun l => (l, c'))).filter (fun p => p.2 == c))
      (classesOf t)) = (classesOf t).map (fun c' => if c' = c then (seg c').map (fun l => (l, c')) else []) := h2
  calc concatLists (List.map ((fun l' => l'.filter (fun p => p.2 == c)) ∘
          (fun c' => (seg c').map (fun l => (l, c')))) (classesOf t))
      = concatLists ((classesOf t).map
          (fun c' => if c' = c then (seg c').map (fun l => (l, c')) else [])) := by
        rw [← h3]; rfl
    _ = (seg c).map (fun l => (l, c)) :=
        concatLists_eq_of_single _ c _ (List.nodup_dedup _) hc

/-- Fault of `_balance_by_sample_with_replace` with `size=None` on aligned
data without classes: `len(self)` succeeds and line 123 divides by
`num_classes() = 0`, raising `ZeroDivisionError`. -/
theorem balanceBySample_zero_classes (md : ModelingData) (pick : ℕ → ℕ)
    (h : md.features.rows.length = md.targets.length)
    (h0 : numClasses md.targets = 0) :
    md.balanceBySample Option.none pick = Except.error PyError.zeroDivisionError := by
  unfold ModelingData.balanceBySample ModelingData.len?
  rw [if_pos h]
  simp only [if_pos h0]

/-- Closed form of `_balance_by_sample_with_replace` with `size=None` on
aligned data with at least one class: `len(self)` succeeds and the per-class
draw count is the truncated `size / num_classes()`. -/
theorem balanceBySample_none_eq (md : ModelingData) (pick : ℕ → ℕ)
    (h : md.features.rows.length = md.targets.length)
    (h0 : numClasses md.targets ≠ 0) :
    md.balanceBySample Option.none pick = Except.ok
      ⟨md.features.ixLabel (concatLists ((classesOf md.targets).map
          (fun c => npChoice (classLabels md.targets c)
            (md.targets.length / numClasses md.targets) pick))),
       seriesIxLabel md.targets (concatLists ((classesOf md.targets).map
          (fun c => npChoice (classLabels md.targets c)
            (md.targets.length / numClasses md.targets) pick))),
       Option.none⟩ := by
  unfold ModelingData.balanceBySample ModelingData.len?
  rw [if_pos h]
  have hk : (Rat.floor (approxNumPerClass md md.targets.length)).toNat
      = md.targets.length / numClasses md.targets := ratFloor_natCast_div _ _
  simp only [hk, if_neg h0]

theorem colIdx_isSome_of_mem {cs : List String} {n : String} (h : n ∈ cs) :
    (colIdx cs n).isSome = true := by
  induction cs with
  | nil => cases h
  | cons c cs ih =>
    unfold colIdx
    by_cases hc : c = n
    · rw [if_pos hc]; rfl
    · rw [if_neg hc]
      have hn : n ∈ cs := by
        rcases List.mem_cons.mp h with h' | h'
        · exact absurd h'.symm hc
        · exact h'
      simpa using ih hn

theorem mem_of_colIdx_isSome {cs : List String} {n : String}
    (h : (colIdx cs n).isSome = true) : n ∈ cs := by
  induction cs with
  | nil => simp [colIdx] at h
  | cons c cs ih =>
    unfold colIdx at h
    by_cases hc : c = n
    · exact hc ▸ List.mem_cons_self _ _
    · rw [if_neg hc] at h
      have h' : (colIdx cs n).isSome = true := by simpa using h
      exact List.mem_cons_of_mem _ (ih h')

/-! The claims. -/

/-- Claim C1 (code evaluation at the failing input): on a two-row instance
split into train positions `[0]` and test positions `[1]`, the targets of
the train instance are `self.targets` at the train positions, but the
targets of the test instance are the feature rows at the test positions
(`y_test = self.features.ix[test]`, source line 97), not `self.targets` at
the test positions as the claim states. -/
theorem claim_C1_code_eval :
    (ModelingData.train_test_split mdC1 [0] [1]).1.targets = seriesIxPos mdC1.targets [0]
    ∧ (ModelingData.train_test_split mdC1 [0] [1]).2.targets = [(1, Val.row [Cell.int 2])]
    ∧ seriesIxPos mdC1.targets [1] = [(1, Val.int 20)]
    ∧ (ModelingData.train_test_split mdC1 [0] [1]).2.targets ≠ seriesIxPos mdC1.targets [1] :=
  ⟨rfl, rfl, rfl, by decide⟩

/-- Claim C2 (code evaluation at the failing input): splitting a three-row
instance into train `[0, 1]` and test `[2]`, the train instance stays aligned
with the original targets, but the test instance pairs row label 2 with the
feature row `[3]` instead of the identically-indexed target value `30` —
row-index alignment between features and targets is broken by the test
instance of `train_test_split`. -/
theorem claim_C2_code_eval :
    (ModelingData.train_test_split mdC2 [0, 1] [2]).1.targets
        = [(0, Val.int 10), (1, Val.int 20)]
    ∧ (ModelingData.train_test_split mdC2 [0, 1] [2]).2.targets
        = [(2, Val.row [Cell.int 3])]
    ∧ seriesLookup mdC2.targets 2 = some (Val.int 30)
    ∧ Val.row [Cell.int 3] ≠ Val.int 30 :=
  ⟨rfl, rfl, rfl, by decide⟩

/-- Claim C3 (code evaluation at the failing input): on four records with one
predicted-negative record of class B, the code reports `true_negatives = 2`
and `false_negatives = 1` (both filtered from the predicted-positive subset,
source lines 241-242), while counting among the predicted-negative records as
the claim states would give 1 and 0. -/
theorem claim_C3_code_eval :
    (get_threshold_summary exC3 "A" (mkRat 1 2)).map
        (fun s => (s.true_negatives, s.false_negatives)) = some (2, 1)
    ∧ ((negativesOf exC3 "A" (mkRat 1 2)).filter (fun r => r.target != "A")).length = 1
    ∧ ((negativesOf exC3 "A" (mkRat 1 2)).filter (fun r => r.target == "A")).length = 0 :=
  ⟨rfl, rfl, rfl⟩

/-- Claim C4 (code evaluation at the failing input): on four records with
`TP = 2`, `FP = 1` and four records total, the code returns
`false_positive_rate = 2/4` (that is `TP/num`, source line 254) and
`true_positive_rate = 1/4` (that is `FP/num`, source line 255) — the
numerators are swapped relative to the claim, and `2/4 ≠ 1/4`. -/
theorem claim_C4_code_eval :
    (get_threshold_summary exC4 "A" (mkRat 1 2)).map
        (fun s => (s.true_positives, s.false_positives)) = some (2, 1)
    ∧ (get_threshold_summary exC4 "A" (mkRat 1 2)).map (fun s => s.false_positive_rate)
        = some ((2 : ℚ) / 4)
    ∧ (get_threshold_summary exC4 "A" (mkRat 1 2)).map (fun s => s.true_positive_rate)
        = some ((1 : ℚ) / 4)
    ∧ (2 : ℚ) / 4 ≠ (1 : ℚ) / 4 := by
  refine ⟨rfl, ?_, ?_, by norm_num⟩
  · have h : (get_threshold_summary exC4 "A" (mkRat 1 2)).map (fun s => s.false_positive_rate)
        = some (((2 : ℕ) : ℚ) / ((4 : ℕ) : ℚ)) := rfl
    rw [h]
    norm_num
  · have h : (get_threshold_summary exC4 "A" (mkRat 1 2)).map (fun s => s.true_positive_rate)
        = some (((1 : ℕ) : ℚ) / ((4 : ℕ) : ℚ)) := rfl
    rw [h]
    norm_num

/-- Claim C5 (counterexample): on a ten-row instance with three classes,
`size` defaults to `len(self) = 10`, and the per-class count the code computes
is the exact quotient `10/3` (true division, source line 1), not the
integer-truncated `10 // 3 = 3` the claim asserts. -/
theorem claim_C5_counterexample :
    mdC5x.len? = Except.ok 10
    ∧ numClasses mdC5x.targets = 3
    ∧ approxNumPerClass mdC5x 10 = (10 : ℚ) / 3
    ∧ (10 : ℚ) / 3 ≠ ((10 / 3 : ℕ) : ℚ) := by
  refine ⟨by decide, rfl, ?_, by norm_num⟩
  have h : approxNumPerClass mdC5x 10 = ((10 : ℕ) : ℚ) / ((3 : ℕ) : ℚ) := rfl
  rw [h]
  norm_num

/-- Claim C5 as amended: with `size` unset it defaults to `len(self)`; the
per-class count is the exact quotient `size / num_classes()` handed to the
external sampler; whenever `num_classes()` divides `size` — so the quotient
is the integer `k = size / num_classes()` — the sampler draws exactly `k`
labels per class with replacement from the labels of that class, the result
has `num_classes() * k` rows with exactly `k` rows per class, and the target
of every drawn row is the original target at its label (hence equals its
class). -/
theorem claim_C5_amended (md : ModelingData) (pick : ℕ → ℕ)
    (halign : md.features.rows.length = md.targets.length)
    (hnodup : (md.targets.map Prod.fst).Nodup)
    (_hdvd : numClasses md.targets ∣ md.targets.length)
    (r : ModelingData)
    (hr : md.balanceBySample Option.none pick = Except.ok r) :
    r.targets.length
        = numClasses md.targets * (md.targets.length / numClasses md.targets)
    ∧ (∀ c ∈ classesOf md.targets,
        (r.targets.filter (fun p => p.2 == c)).length
          = md.targets.length / numClasses md.targets)
    ∧ (∀ p ∈ r.targets, seriesLookup md.targets p.1 = some p.2) := by
  by_cases h0 : numClasses md.targets = 0
  · rw [balanceBySample_zero_classes md pick halign h0] at hr
    exact Except.noConfusion hr
  rw [balanceBySample_none_eq md pick halign h0] at hr
  have hAr := Except.ok.inj hr
  have hsel := balancedSelection md.targets hnodup
      (fun c => npChoice (classLabels md.targets c)
        (md.targets.length / numClasses md.targets) pick)
      (fun c hc l hl => mem_npChoice (classLabels_ne_nil hc) hl)
  have ht : r.targets = seriesIxLabel md.targets
      (concatLists ((classesOf md.targets).map
        (fun c => npChoice (classLabels md.targets c)
          (md.targets.length / numClasses md.targets) pick))) := by
    rw [← hAr]
  refine ⟨?_, ?_, ?_⟩
  · rw [ht, hsel.1]
    exact (concatLists_length_const _ _ (md.targets.length / numClasses md.targets)
      (fun c _ => by rw [List.length_map, npChoice_length])).trans rfl
  · intro c hc
    rw [ht, hsel.2 c hc, List.length_map, npChoice_length]
  · intro p hp
    rw [ht] at hp
    exact mem_seriesIxLabel hp

/-- Claim C5 witness: on the four-row two-class instance `mdC5w` with the
always-zero draw oracle, the sample balance is `rC5w`; it has
`2 * (4 / 2) = 4` rows, exactly `4 / 2 = 2` of class `a`, and row label 0
carries its original target `a`. -/
theorem claim_C5_witness :
    rC5w.targets.length
        = numClasses mdC5w.targets * (mdC5w.targets.length / numClasses mdC5w.targets)
    ∧ (rC5w.targets.filter (fun p => p.2 == Val.str "a")).length
        = mdC5w.targets.length / numClasses mdC5w.targets
    ∧ seriesLookup mdC5w.targets 0 = some (Val.str "a") := by
  have hr : mdC5w.balanceBySample Option.none pickZero = Except.ok rC5w := by
    rw [balanceBySample_none_eq mdC5w pickZero (by decide) (by decide)]
    decide
  have h := claim_C5_amended mdC5w pickZero (by decide) (by decide) (by decide) rC5w hr
  exact ⟨h.1, h.2.1 (Val.str "a") (by decide), h.2.2 (0, Val.str "a") (by decide)⟩

/-- Claim C6: for any instance with uniquely-labelled rows,
`_balance_by_truncation` keeps, for each target class, exactly the first `m`
row labels of that class in existing row order (`m` the minimum class count),
concatenated across classes — so the result has `num_classes() * m` rows, its
feature rows are the original rows at the kept labels, and its targets stay
aligned with the original targets. -/
theorem claim_C6 (md : ModelingData) (hnodup : (md.targets.map Prod.fst).Nodup) :
    (∀ c ∈ classesOf md.targets,
      (md.balanceByTruncation.targets.filter (fun p => p.2 == c)).map Prod.fst
        = (classLabels md.targets c).take (minClassCount md.targets))
    ∧ md.balanceByTruncation.targets.length
        = numClasses md.targets * minClassCount md.targets
    ∧ (∀ p ∈ md.balanceByTruncation.features.rows, md.features.rowAt p.1 = some p.2)
    ∧ (∀ p ∈ md.balanceByTruncation.targets, seriesLookup md.targets p.1 = some p.2) := by
  have hsel := balancedSelection md.targets hnodup
      (fun c => (classLabels md.targets c).take (minClassCount md.targets))
      (fun c _ l hl => List.take_subset _ _ hl)
  have htr : md.balanceByTruncation.targets
      = seriesIxLabel md.targets (concatLists ((classesOf md.targets).map
          (fun c => (classLabels md.targets c).take (minClassCount md.targets)))) := rfl
  refine ⟨?_, ?_, ?_, ?_⟩
  · intro c hc
    rw [htr, hsel.2 c hc, List.map_map]
    have hcomp : (Prod.fst ∘ fun l : ℕ => (l, c)) = id := rfl
    rw [hcomp, List.map_id]
  · rw [htr, hsel.1]
    refine (concatLists_length_const _ _ (minClassCount md.targets) ?_).trans rfl
    intro c hc
    rw [List.length_map, List.length_take, length_classLabels]
    exact Nat.min_eq_left (minClassCount_le hc)
  · intro p hp
    exact mem_ixLabel_rows hp
  · intro p hp
    rw [htr] at hp
    exact mem_seriesIxLabel hp

/-- Claim C6 witness: on the three-row instance `mdC6w` with class counts
a: 2 and b: 1, truncation keeps the first `min = 1` label of class `a`, has
`2 * 1 = 2` rows in total, and keeps the original feature row of row 1. -/
theorem claim_C6_witness :
    ((mdC6w.balanceByTruncation.targets.filter (fun p => p.2 == Val.str "a")).map Prod.fst
        = (classLabels mdC6w.targets (Val.str "a")).take (minClassCount mdC6w.targets))
    ∧ mdC6w.balanceByTruncation.targets.length
        = numClasses mdC6w.targets * minClassCount mdC6w.targets
    ∧ mdC6w.features.rowAt 1 = some [Cell.int 2] :=
  ⟨(claim_C6 mdC6w (by decide)).1 (Val.str "a") (by decide),
   (claim_C6 mdC6w (by decide)).2.1,
   (claim_C6 mdC6w (by decide)).2.2.1 (1, [Cell.int 2]) (by decide)⟩

/-- Claim C7: `from_dataframe(table, target)` with `features` omitted returns
an instance whose feature table keeps all columns of the table — the target
column included, since `features != target` compares `None` to the target and
never excludes anything — and whose targets are `table[target]`. -/
theorem claim_C7 (df : DataFrame) (target : String) (md : ModelingData)
    (hmd : ModelingData.from_dataframe df target Option.none = some md) :
    md.features.columns = df.columns
    ∧ target ∈ md.features.columns
    ∧ df.col? target = some md.targets := by
  cases h1 : df.col? target with
  | none => simp [ModelingData.from_dataframe, h1] at hmd
  | some td =>
    simp only [ModelingData.from_dataframe, h1] at hmd
    have hf : df.columns.filter (fun _feature => Val.none != Val.str target) = df.columns :=
      List.filter_eq_self.mpr (fun a _ => rfl)
    have hall : df.columns.all (fun n => (colIdx df.columns n).isSome) = true :=
      List.all_eq_true.mpr (fun n hn => colIdx_isSome_of_mem hn)
    have hsel : df.select df.columns = some ⟨df.columns, df.rows.map
        (fun p => (p.1, df.columns.filterMap
          (fun n => (colIdx df.columns n).bind (fun i => p.2[i]?))))⟩ := by
      unfold DataFrame.select
      rw [if_pos hall]
    rw [hf, hsel] at hmd
    simp only [Option.some.injEq] at hmd
    have htcol : target ∈ df.columns := by
      have hi : (colIdx df.columns target).isSome = true := by
        unfold DataFrame.col? at h1
        cases hci : colIdx df.columns target with
        | none => rw [hci] at h1; exact Option.noConfusion h1
        | some i => rfl
      exact mem_of_colIdx_isSome hi
    refine ⟨?_, ?_, ?_⟩
    · rw [← hmd]
    · rw [← hmd]; exact htcol
    · rw [← hmd]

/-- Claim C7 witness: on the two-column table `dfC7` with target column `t`
omitted features select both columns, `t` included, and the targets are the
`t` column. -/
theorem claim_C7_witness :
    mdC7w.features.columns = dfC7.columns
    ∧ "t" ∈ mdC7w.features.columns
    ∧ dfC7.col? "t" = some mdC7w.targets :=
  claim_C7 dfC7 "t" mdC7w (by decide)

/-- Claim C8 (counterexample): an unsupported `how` raises `AttributeError()`
constructed with no arguments — its message is the empty string, which does
not contain the unsupported value (here `bogus`), so the error does not name
the `how` value; moreover the `sample` branch is not raise-free as the claim
asserts: on the empty aligned instance `mdC8e` it raises `ZeroDivisionError`
at the `size / num_classes()` division (source line 123). -/
theorem claim_C8_counterexample :
    mdC8w.get_balanced "bogus" pickZero = Except.error (PyError.attributeError "")
    ∧ ¬ ("bogus".toList <:+: "".toList)
    ∧ mdC8e.get_balanced "sample" pickZero = Except.error PyError.zeroDivisionError :=
  ⟨rfl, by decide, rfl⟩

/-- Claim C8 as amended: for any `how` other than `truncate` and `sample`,
`get_balanced` raises an `AttributeError` whose message is empty (naming
nothing, in particular not the unsupported `how` value); a `how` of
`truncate` dispatches to the truncation strategy and does not raise, and a
`how` of `sample` dispatches to the sampling strategy — which can itself
raise (the `len(self)` assertion on misaligned data, or a
`ZeroDivisionError` when the instance has no classes). -/
theorem claim_C8_amended (md : ModelingData) (how : String) (pick : ℕ → ℕ) :
    (how ≠ "truncate" → how ≠ "sample" →
      md.get_balanced how pick = Except.error (PyError.attributeError ""))
    ∧ md.get_balanced "truncate" pick = Except.ok md.balanceByTruncation
    ∧ md.get_balanced "sample" pick = md.balanceBySample Option.none pick := by
  refine ⟨fun h1 h2 => ?_, rfl, rfl⟩
  unfold ModelingData.get_balanced
  rw [if_neg h1, if_neg h2]

/-- Claim C8 witness: on `mdC8w`, the how value `other` raises the bare
`AttributeError`, `truncate` returns the truncation balance, and `sample`
invokes the sampling strategy. -/
theorem claim_C8_witness :
    mdC8w.get_balanced "other" pickZero = Except.error (PyError.attributeError "")
    ∧ mdC8w.get_balanced "truncate" pickZero = Except.ok mdC8w.balanceByTruncation
    ∧ mdC8w.get_balanced "sample" pickZero = mdC8w.balanceBySample Option.none pickZero :=
  ⟨(claim_C8_amended mdC8w "other" pickZero).1 (by decide) (by decide),
   (claim_C8_amended mdC8w "other" pickZero).2.1,
   (claim_C8_amended mdC8w "other" pickZero).2.2⟩

/-- Claim C9: the specificity computed by `get_threshold_summary` never
divides by zero — whenever a record is returned, specificity is
`TN/(FP+TN)` when `FP+TN > 0` and the guarded value `1.0` when `FP+TN = 0` —
whereas the precision division by the predicted-positive count is unguarded:
when no record is predicted positive the whole call faults
(`ZeroDivisionError`, modelled as `Option.none`). -/
theorem claim_C9 (ps : List ProbaRecord) (target : String) (threshold : ℚ) :
    ((positivesOf ps target threshold).length = 0 →
      get_threshold_summary ps target threshold = Option.none)
    ∧ (∀ s, get_threshold_summary ps target threshold = some s →
        s.specificity = if 0 < s.false_positives + s.true_negatives
          then (s.true_negatives : ℚ) / ((s.false_positives : ℚ) + (s.true_negatives : ℚ))
          else 1) := by
  constructor
  · intro h0
    simp [get_threshold_summary, h0]
  · intro s hs
    simp only [get_threshold_summary] at hs
    split at hs
    · exact Option.noConfusion hs
    split at hs
    · exact Option.noConfusion hs
    split at hs
    · exact Option.noConfusion hs
    split at hs
    · exact Option.noConfusion hs
    have h := Option.some.inj hs
    subst h
    rfl

/-- Claim C9 witness: with one record of proba 0.1 nothing is predicted
positive and the call faults; on `exC9` a record is returned and its
specificity satisfies the guarded formula. -/
theorem claim_C9_witness :
    get_threshold_summary exC9neg "A" (mkRat 1 2) = Option.none
    ∧ recC9.specificity = (if 0 < recC9.false_positives + recC9.true_negatives
        then (recC9.true_negatives : ℚ)
          / ((recC9.false_positives : ℚ) + (recC9.true_negatives : ℚ))
        else 1) :=
  ⟨(claim_C9 exC9neg "A" (mkRat 1 2)).1 rfl,
   (claim_C9 exC9 "A" (mkRat 1 2)).2 recC9 rfl⟩

/-- Claim C10: every record `get_threshold_summary` returns satisfies
`true_negatives = false_positives` and `false_negatives = true_positives`
(the negative counts are filtered from the same predicted-positive subset as
the positive counts), and hence `accuracy = (TP + FP) / total`. -/
theorem claim_C10 (ps : List ProbaRecord) (target : String) (threshold : ℚ)
    (s : ThresholdSummary) (hs : get_threshold_summary ps target threshold = some s) :
    s.true_negatives = s.false_positives
    ∧ s.false_negatives = s.true_positives
    ∧ s.accuracy = ((s.true_positives : ℚ) + (s.false_positives : ℚ)) / (ps.length : ℚ) := by
  simp only [get_threshold_summary] at hs
  split at hs
  · exact Option.noConfusion hs
  split at hs
  · exact Option.noConfusion hs
  split at hs
  · exact Option.noConfusion hs
  split at hs
  · exact Option.noConfusion hs
  have h := Option.some.inj hs
  subst h
  exact ⟨rfl, rfl, rfl⟩

/-- Claim C10 witness: the record returned on `exC10` has
`true_negatives = false_positives`, `false_negatives = true_positives`, and
`accuracy = (TP + FP) / total`. -/
theorem claim_C10_witness :
    recC10.true_negatives = recC10.false_positives
    ∧ recC10.false_negatives = recC10.true_positives
    ∧ recC10.accuracy
        = ((recC10.true_positives : ℚ) + (recC10.false_positives : ℚ)) / (exC10.length : ℚ) :=
  claim_C10 exC10 "A" (mkRat 1 2) recC10 rfl
